import Mathlib

/-!
# Verification of the CHEAP core data model (cheap-py)

Shallow embedding of the core modules of the `cheap-core` package
(`property_type.py`, `property_impl.py`, `aspect_impl.py`, `entity_impl.py`,
`catalog_impl.py`, `hierarchy_impl.py`) together with theorems settling the
specification claims about them.

Python runtime values are modelled by the inductive `PValue` whose
constructors record the concrete runtime class of the object; payloads that
the core never computes on (float bit patterns, decimal digits, timestamps,
UUIDs, byte strings) are carried opaquely.  UUIDs are modelled as naturals.
-/

namespace Cheap

/-- A Python value of one of the kinds in the `PropertyValue` union from
`property_type.py`.  The constructor records the object's concrete class;
payloads are carried verbatim and never computed on by the core. -/
inductive PValue where
  | pyInt (n : Int)
  | pyFloat (bits : Nat)
  | pyBool (b : Bool)
  | pyStr (s : String)
  | pyDecimal (digits : String)
  | pyDatetime (t : Int)
  | pyUuid (u : Nat)
  | pyBytes (bs : List Nat)
deriving DecidableEq, Repr

/-- A Python object as seen by `PropertyType.from_value`, whose argument is
`Any`: either one of the property-value kinds, `None`, or some other object
(list, dict, ...) that is an instance of none of the checked classes. -/
inductive PyObj where
  | obj (v : PValue)
  | noneObj
  | otherObj
deriving DecidableEq, Repr

/-- The Python classes that `PropertyType.python_type` can return. -/
inductive PyType where
  | intT
  | floatT
  | boolT
  | strT
  | decimalT
  | datetimeT
  | uuidT
  | bytesT
deriving DecidableEq, Repr

/-- The concrete runtime class of a value (Python `type(v)`). -/
def PValue.classOf : PValue → PyType
  | .pyInt _ => .intT
  | .pyFloat _ => .floatT
  | .pyBool _ => .boolT
  | .pyStr _ => .strT
  | .pyDecimal _ => .decimalT
  | .pyDatetime _ => .datetimeT
  | .pyUuid _ => .uuidT
  | .pyBytes _ => .bytesT

/-- Python `isinstance(v, t)` for the classes above.  The single subclass
relation among them is `bool <: int`, so a `bool` value is an instance of
both `bool` and `int`. -/
def pyIsinstance (v : PValue) (t : PyType) : Bool :=
  v.classOf == t || (v.classOf == .boolT && t == .intT)

/-- Embedding of `isinstance` on an arbitrary object: `None` and objects outside the
property-value union are instances of none of the checked classes. -/
def PyObj.isinstance : PyObj → PyType → Bool
  | .obj v, t => pyIsinstance v t
  | .noneObj, _ => false
  | .otherObj, _ => false

/-- The `PropertyType` enum from `property_type.py`. -/
inductive PropertyType where
  | INTEGER
  | FLOAT
  | BIG_INTEGER
  | BIG_DECIMAL
  | BOOLEAN
  | STRING
  | TEXT
  | DATE_TIME
  | URI
  | UUID
  | CLOB
  | BLOB
deriving DecidableEq, Repr

namespace PropertyType

/-- Embedding of `PropertyType.python_type`: the `type_mapping` dict from the source. -/
def python_type : PropertyType → PyType
  | .INTEGER => .intT
  | .FLOAT => .floatT
  | .BIG_INTEGER => .intT
  | .BIG_DECIMAL => .decimalT
  | .BOOLEAN => .boolT
  | .STRING => .strT
  | .TEXT => .strT
  | .DATE_TIME => .datetimeT
  | .URI => .strT
  | .UUID => .uuidT
  | .CLOB => .strT
  | .BLOB => .bytesT

/-- Embedding of `PropertyType.validate`: `None` is valid for every type; otherwise the
value must be an `isinstance` of the declared Python type. -/
def validate (t : PropertyType) (value : Option PValue) : Bool :=
  match value with
  | none => true
  | some v => pyIsinstance v t.python_type

/-- Embedding of `PropertyType.from_value`: the ordered `isinstance` chain from the
source (`bool` is checked before `int` since `bool` subclasses `int`);
an input matching none of the checked classes raises `TypeError`,
modelled as `Except.error ()`. -/
def from_value (value : PyObj) : Except Unit PropertyType :=
  if value.isinstance .boolT then .ok .BOOLEAN
  else if value.isinstance .intT then .ok .INTEGER
  else if value.isinstance .floatT then .ok .FLOAT
  else if value.isinstance .decimalT then .ok .BIG_DECIMAL
  else if value.isinstance .strT then .ok .STRING
  else if value.isinstance .datetimeT then .ok .DATE_TIME
  else if value.isinstance .uuidT then .ok .UUID
  else if value.isinstance .bytesT then .ok .BLOB
  else .error ()

end PropertyType

/-- The spec's notion of "the value's representation matches the kind's
declared representation": the concrete class of the value is the declared
class, or — since the spec notes that "booleans may structurally alias
integers" — the value is a boolean and the declared class is integer. -/
def specMatchesRepr (v : PValue) (t : PropertyType) : Bool :=
  v.classOf == t.python_type || (v.classOf == .boolT && t.python_type == .intT)

/-- The precedence list the spec gives for kind inference: boolean before
integer, then integer, float, arbitrary-precision decimal, string,
timestamp, unique identifier, binary blob. -/
def specPrecedence : List (PyType × PropertyType) :=
  [(.boolT, .BOOLEAN), (.intT, .INTEGER), (.floatT, .FLOAT),
   (.decimalT, .BIG_DECIMAL), (.strT, .STRING), (.datetimeT, .DATE_TIME),
   (.uuidT, .UUID), (.bytesT, .BLOB)]

/-- The spec's description of `from_value`: the first kind in the
precedence list whose class the input is an instance of; a type error when
no kind matches. -/
def specFromValue (value : PyObj) : Except Unit PropertyType :=
  match specPrecedence.find? (fun p => value.isinstance p.1) with
  | some p => .ok p.2
  | none => .error ()

/-! ## Python dicts

Python `dict`s (insertion-ordered, unique keys) are modelled as association
lists; `dictGet` is `d.get(k)`, `dictSet` is `d[k] = v` (update in place
when the key exists, append otherwise, as CPython does). -/

/-- Embedding of `d.get(k)`: the value at the first occurrence of key `k`, if any. -/
def dictGet {κ α : Type} [BEq κ] (d : List (κ × α)) (k : κ) : Option α :=
  match d with
  | [] => none
  | (k', v) :: t => if k' == k then some v else dictGet t k

/-- Embedding of `d[k] = v`: update the existing entry in place, else append. -/
def dictSet {κ α : Type} [BEq κ] (d : List (κ × α)) (k : κ) (v : α) :
    List (κ × α) :=
  match d with
  | [] => [(k, v)]
  | (k', v') :: t => if k' == k then (k', v) :: t else (k', v') :: dictSet t k v

theorem dictGet_dictSet_self {κ α : Type} [BEq κ] [LawfulBEq κ]
    (d : List (κ × α)) (k : κ) (v : α) : dictGet (dictSet d k v) k = some v := by
  induction d with
  | nil => simp [dictGet, dictSet]
  | cons p t ih =>
      obtain ⟨k', v'⟩ := p
      by_cases h : k' = k
      · subst h; simp [dictGet, dictSet]
      · have hb : (k' == k) = false := by simp [h]
        simp [dictGet, dictSet, hb, ih]

theorem dictGet_dictSet_ne {κ α : Type} [BEq κ] [LawfulBEq κ]
    (d : List (κ × α)) (k k' : κ) (v : α) (hne : k ≠ k') :
    dictGet (dictSet d k v) k' = dictGet d k' := by
  induction d with
  | nil => simp [dictGet, dictSet, hne]
  | cons p t ih =>
      obtain ⟨k0, v0⟩ := p
      by_cases h : k0 = k
      · subst h
        have hb : (k0 == k0) = true := by simp
        have hb' : (k0 == k') = false := by simp [hne]
        simp [dictGet, dictSet, hb, hb']
      · have hb : (k0 == k) = false := by simp [h]
        by_cases h2 : k0 = k'
        · subst h2; simp [dictGet, dictSet, hb]
        · have hb2 : (k0 == k') = false := by simp [h2]
          simp [dictGet, dictSet, hb, hb2, ih]

/-! ## PropertyDef / Property (`property_impl.py`) -/

/-- Embedding of `PropertyDefImpl`: immutable property definition (name, type, default
and constraint flags), from `property_impl.py`. -/
structure PropertyDefImpl where
  name : String
  property_type : PropertyType
  default_value : Option PValue := none
  has_default_value : Bool := false
  is_readable : Bool := true
  is_writable : Bool := true
  is_nullable : Bool := true
  is_multivalued : Bool := false
deriving DecidableEq, Repr

/-- Embedding of `PropertyDefImpl.__post_init__`: construction fails (`ValueError`) when
the name is empty or a non-`None` default fails type validation. -/
def mkPropertyDefImpl (d : PropertyDefImpl) : Except Unit PropertyDefImpl :=
  if d.name = "" then .error ()
  else if d.default_value ≠ none && !(d.property_type.validate d.default_value)
  then .error ()
  else .ok d

/-- Embedding of `PropertyImpl`: a definition paired with a stored value; `none` in
`_value` is the "unset" sentinel, exactly as in the Python source. -/
structure PropertyImpl where
  definition : PropertyDefImpl
  _value : Option PValue := none
deriving DecidableEq, Repr

/-- The `PropertyImpl.value` getter: the stored value, or the definition's
default when `_value` is `None`. -/
def PropertyImpl.value (p : PropertyImpl) : Option PValue :=
  match p._value with
  | none => p.definition.default_value
  | some v => some v

/-- The errors the `PropertyImpl.value` setter can raise. -/
inductive SetError where
  | readOnly
  | typeMismatch
  | nonNullable
deriving DecidableEq, Repr

/-- The `PropertyImpl.value` setter: rejects writes to a non-writable
definition, then type-checks non-`None` values, then rejects `None` for
non-nullable definitions; otherwise stores the new value. -/
def PropertyImpl.setValue (p : PropertyImpl) (new_value : Option PValue) :
    Except SetError PropertyImpl :=
  if !p.definition.is_writable then .error .readOnly
  else
    match new_value with
    | some v =>
        if !(p.definition.property_type.validate (some v)) then
          .error .typeMismatch
        else .ok { p with _value := some v }
    | none =>
        if !p.definition.is_nullable then .error .nonNullable
        else .ok { p with _value := none }

theorem setValue_ok_eq (p q : PropertyImpl) (v : Option PValue)
    (h : p.setValue v = .ok q) : q = { p with _value := v } := by
  unfold PropertyImpl.setValue at h
  by_cases hw : p.definition.is_writable
  · simp [hw] at h
    cases v with
    | some x =>
        by_cases hv : p.definition.property_type.validate (some x)
        · simpa [hv] using h.symm
        · simp [hv] at h
    | none =>
        by_cases hn : p.definition.is_nullable
        · simpa [hn] using h.symm
        · simp [hn] at h
  · simp [hw] at h

/-! ## AspectDef / Aspect (`aspect_impl.py`) -/

/-- Embedding of `AspectDefImpl`: immutable aspect definition — name, ordered mapping of
property name to `PropertyDef`, identifier (a UUID, modelled as a natural)
and access flags. -/
structure AspectDefImpl where
  name : String
  properties : List (String × PropertyDefImpl) := []
  id : Nat := 0
  is_readable : Bool := true
  is_writable : Bool := true
  can_add_properties : Bool := false
  can_remove_properties : Bool := false
deriving DecidableEq, Repr

/-- Embedding of `AspectImpl`: a definition plus a mapping of property name to
`Property`.  The non-owning `entity` back-reference is modelled by the
entity's identifier. -/
structure AspectImpl where
  definition : AspectDefImpl
  properties : List (String × PropertyImpl) := []
  entity : Option Nat := none
deriving DecidableEq, Repr

/-- The loop in `AspectImpl.__post_init__`: for every defined property name
missing from `properties`, insert an unset `PropertyImpl` for it. -/
def aspectPostInit (defn : AspectDefImpl)
    (props : List (String × PropertyImpl)) : List (String × PropertyImpl) :=
  defn.properties.foldl
    (fun acc pd =>
      if (dictGet acc pd.1).isSome then acc
      else dictSet acc pd.1 { definition := pd.2, _value := none })
    props

/-- Constructing an `AspectImpl` runs `__post_init__`. -/
def mkAspectImpl (defn : AspectDefImpl) (props : List (String × PropertyImpl))
    (entity : Option Nat) : AspectImpl :=
  { definition := defn, properties := aspectPostInit defn props, entity := entity }

/-- Embedding of `AspectImpl.get_property`: `self.properties.get(property_name)`. -/
def AspectImpl.get_property (a : AspectImpl) (name : String) :
    Option PropertyImpl :=
  dictGet a.properties name

/-- The errors `AspectImpl.set_property` can raise: `KeyError` for an
undefined name, plus the three `Property` setter errors. -/
inductive AspectSetError where
  | notDefined
  | readOnly
  | typeMismatch
  | nonNullable
deriving DecidableEq, Repr

def SetError.toAspectErr : SetError → AspectSetError
  | .readOnly => .readOnly
  | .typeMismatch => .typeMismatch
  | .nonNullable => .nonNullable

/-- Embedding of `AspectImpl.set_property`, returning the raised error (if any) together
with the post-call state.  A successful Python write mutates the
`PropertyImpl` in place; this is modelled by writing the updated property
back under the same key.  In the lazy-creation branch the fresh property is
inserted into the dict *before* the write is attempted, exactly as in the
source, so a failing write leaves it inserted; that branch is reachable
only when a defined property name is missing from `properties`, which
`__post_init__` rules out. -/
def AspectImpl.set_property (a : AspectImpl) (name : String)
    (value : Option PValue) : Option AspectSetError × AspectImpl :=
  match dictGet a.definition.properties name with
  | none => (some .notDefined, a)
  | some pd =>
    match dictGet a.properties name with
    | some prop =>
        match prop.setValue value with
        | .ok p2 => (none, { a with properties := dictSet a.properties name p2 })
        | .error e => (some e.toAspectErr, a)
    | none =>
        let prop : PropertyImpl := { definition := pd, _value := none }
        let a1 : AspectImpl :=
          { a with properties := dictSet a.properties name prop }
        match prop.setValue value with
        | .ok p2 =>
            (none, { a1 with properties := dictSet a1.properties name p2 })
        | .error e => (some e.toAspectErr, a1)

theorem aspectPostInit_dictGet (l : List (String × PropertyDefImpl))
    (acc : List (String × PropertyImpl)) (name : String) :
    dictGet
      (l.foldl
        (fun acc pd =>
          if (dictGet acc pd.1).isSome then acc
          else dictSet acc pd.1 { definition := pd.2, _value := none })
        acc) name =
      match dictGet acc name with
      | some p => some p
      | none =>
          (dictGet l name).map
            (fun pd => { definition := pd, _value := none }) := by
  induction l generalizing acc with
  | nil =>
      cases h : dictGet acc name <;> simp [dictGet, h]
  | cons hd t ih =>
      obtain ⟨pn, pd⟩ := hd
      simp only [List.foldl_cons]
      rw [ih]
      by_cases hmem : (dictGet acc pn).isSome = true
      · rw [if_pos hmem]
        by_cases hname : pn = name
        · subst hname
          cases h : dictGet acc pn with
          | none => rw [h] at hmem; simp at hmem
          | some p => simp [h]
        · have hb : (pn == name) = false := by simp [hname]
          cases h : dictGet acc name with
          | none => simp [dictGet, hb, h]
          | some p => simp [h]
      · rw [if_neg hmem]
        have hacc : dictGet acc pn = none := by
          cases h : dictGet acc pn with
          | none => rfl
          | some p => exact absurd (by simp [h]) hmem
        by_cases hname : pn = name
        · subst hname
          rw [dictGet_dictSet_self, hacc]
          simp [dictGet]
        · rw [dictGet_dictSet_ne _ _ _ _ hname]
          have hb : (pn == name) = false := by simp [hname]
          cases h : dictGet acc name with
          | none => simp [dictGet, hb, h]
          | some p => simp [h]

theorem mkAspect_establishes_inv (defn : AspectDefImpl)
    (props : List (String × PropertyImpl)) (e : Option Nat) (n : String)
    (h : (dictGet defn.properties n).isSome = true) :
    (dictGet (mkAspectImpl defn props e).properties n).isSome = true := by
  show (dictGet (aspectPostInit defn props) n).isSome = true
  unfold aspectPostInit
  rw [aspectPostInit_dictGet]
  cases hp : dictGet props n with
  | some p => simp
  | none =>
      cases hd : dictGet defn.properties n with
      | none => rw [hd] at h; simp at h
      | some pd => simp

/-! ## Entity (`entity_impl.py`)

`EntityImpl` is declared `@dataclass(slots=True)`, which generates
`__eq__` comparing *all* fields — the id and the aspects dict — and, since
`eq=True` and `frozen=False`, sets `__hash__` to `None`.  The functions
below model that generated equality (Python `==` at each field). -/

/-- Python `==` on property values.  Same-kind comparison is payload
equality; Python's numeric cross-type equality is modelled for the
int/bool pair (`True == 1`).  Cross-kind numeric comparisons involving
floats or decimals are not modelled (nothing in this development evaluates
them). -/
def pyValueEq : PValue → PValue → Bool
  | .pyInt a, .pyInt b => a == b
  | .pyBool a, .pyBool b => a == b
  | .pyInt a, .pyBool b => a == (if b then (1 : Int) else 0)
  | .pyBool a, .pyInt b => (if a then (1 : Int) else 0) == b
  | .pyFloat a, .pyFloat b => a == b
  | .pyStr a, .pyStr b => a == b
  | .pyDecimal a, .pyDecimal b => a == b
  | .pyDatetime a, .pyDatetime b => a == b
  | .pyUuid a, .pyUuid b => a == b
  | .pyBytes a, .pyBytes b => a == b
  | _, _ => false

/-- Python `==` on optional values (`None == None` is true). -/
def pyOptValueEq : Option PValue → Option PValue → Bool
  | none, none => true
  | some a, some b => pyValueEq a b
  | _, _ => false

/-- Python dict `==`: same key set and `==`-equal values; insertion order
is irrelevant. -/
def dictEq {κ α : Type} [BEq κ] (eqv : α → α → Bool)
    (d1 d2 : List (κ × α)) : Bool :=
  d1.length == d2.length &&
  d1.all fun p =>
    match dictGet d2 p.1 with
    | some v => eqv p.2 v
    | none => false

/-- The `__eq__` generated by `@dataclass(frozen=True)` on
`PropertyDefImpl`. -/
def propertyDefEq (a b : PropertyDefImpl) : Bool :=
  a.name == b.name && decide (a.property_type = b.property_type) &&
  pyOptValueEq a.default_value b.default_value &&
  a.has_default_value == b.has_default_value &&
  a.is_readable == b.is_readable && a.is_writable == b.is_writable &&
  a.is_nullable == b.is_nullable && a.is_multivalued == b.is_multivalued

/-- The `__eq__` generated by `@dataclass` on `PropertyImpl`. -/
def propertyEq (a b : PropertyImpl) : Bool :=
  propertyDefEq a.definition b.definition && pyOptValueEq a._value b._value

/-- The `__eq__` generated by `@dataclass(frozen=True)` on
`AspectDefImpl`. -/
def aspectDefEq (a b : AspectDefImpl) : Bool :=
  a.name == b.name && dictEq propertyDefEq a.properties b.properties &&
  a.id == b.id && a.is_readable == b.is_readable &&
  a.is_writable == b.is_writable &&
  a.can_add_properties == b.can_add_properties &&
  a.can_remove_properties == b.can_remove_properties

/-- The `__eq__` generated by `@dataclass` on `AspectImpl` (the `entity`
back-reference is compared through the referenced entity's identity). -/
def aspectEq (a b : AspectImpl) : Bool :=
  aspectDefEq a.definition b.definition &&
  dictEq propertyEq a.properties b.properties && a.entity == b.entity

/-- Embedding of `EntityImpl`: unique id (a UUID, modelled as a natural) plus the
mapping from aspect name to aspect. -/
structure EntityImpl where
  id : Nat
  aspects : List (String × AspectImpl) := []
deriving DecidableEq, Repr

/-- The `__eq__` that `@dataclass(slots=True)` actually generates for
`EntityImpl`: it compares the id *and* the aspects dict (the hand-written
identity-based `__eq__` documented in `entity.py` is not inherited, since
the dataclass machinery overrides it). -/
def entityEq (a b : EntityImpl) : Bool :=
  a.id == b.id && dictEq aspectEq a.aspects b.aspects

/-- Python `@dataclass` with the default `eq=True` and `frozen=False` sets
`EntityImpl.__hash__` to `None`, so `hash(entity)` raises `TypeError`:
no entity has a hash value. -/
def EntityImpl.dcHash : EntityImpl → Option Nat := fun _ => none

/-! ## List / Set / Directory / AspectMap hierarchies
(`hierarchy_impl.py`) -/

/-- Python `l[i]`: a negative index counts from the end; `IndexError`
(modelled as `none`) exactly when the adjusted index falls outside the
list. -/
def pyListGet {α : Type} (l : List α) (i : Int) : Option α :=
  let j : Int := if i < 0 then i + l.length else i
  if 0 ≤ j ∧ j < (l.length : Int) then l.get? j.toNat else none

/-- Python `l.insert(i, x)`: the index is clamped into `[0, len(l)]`
(a negative index counts from the end first); insertion never fails. -/
def pyListInsert {α : Type} (l : List α) (i : Int) (x : α) : List α :=
  let j : Int := if i < 0 then max (i + l.length) 0 else min i l.length
  l.take j.toNat ++ x :: l.drop j.toNat

/-- Embedding of `EntityListHierarchyImpl`: ordered list of entity ids, duplicates
allowed. -/
structure EntityListHierarchyImpl where
  name : String
  entities : List Nat := []
deriving DecidableEq, Repr

def EntityListHierarchyImpl.size (h : EntityListHierarchyImpl) : Nat :=
  h.entities.length

/-- Embedding of `add`: append at the end. -/
def EntityListHierarchyImpl.add (h : EntityListHierarchyImpl)
    (entity_id : Nat) : EntityListHierarchyImpl :=
  { h with entities := h.entities ++ [entity_id] }

/-- Embedding of `insert`: `self.entities.insert(index, entity_id)`. -/
def EntityListHierarchyImpl.insert (h : EntityListHierarchyImpl)
    (index : Int) (entity_id : Nat) : EntityListHierarchyImpl :=
  { h with entities := pyListInsert h.entities index entity_id }

/-- Embedding of `get`: `self.entities[index]`. -/
def EntityListHierarchyImpl.get (h : EntityListHierarchyImpl)
    (index : Int) : Option Nat :=
  pyListGet h.entities index

/-- Embedding of `EntitySetHierarchyImpl`: unordered unique entity ids (the Python
`set` is modelled as a duplicate-free list). -/
structure EntitySetHierarchyImpl where
  name : String
  entities : List Nat := []
deriving DecidableEq, Repr

/-- Embedding of `EntityDirectoryHierarchyImpl`: flat path-to-id mapping. -/
structure EntityDirectoryHierarchyImpl where
  name : String
  directory : List (String × Nat) := []
deriving DecidableEq, Repr

/-- Embedding of `AspectMapHierarchyImpl`: entity id to aspect mapping. -/
structure AspectMapHierarchyImpl where
  name : String
  aspects : List (Nat × AspectImpl) := []
deriving DecidableEq, Repr

/-! ## Tree hierarchy (`hierarchy_impl.py`)

`NodeImpl` objects hold mutable references to each other, so the tree is
modelled with an explicit object store: addresses are indices into the
store, fresh allocations append, and in-place mutation is `List.set`. -/

/-- A `NodeImpl` object: entity id, parent reference and children
references. -/
structure NodeObj where
  entity_id : Nat
  parent : Option Nat := none
  children : List Nat := []
deriving DecidableEq, Repr, Inhabited

/-- The `__eq__` generated by `@dataclass` on `NodeImpl`: compare
`entity_id`, then `parent` and `children` recursively by `==`, with
CPython's identity (address) shortcut.  The recursion is fuel-bounded; for
the acyclic object graphs the operations build, any fuel above the store
size suffices (on a cyclic graph Python would die of `RecursionError`,
which nothing below relies on). -/
def nodeEqFuel (h : List NodeObj) : Nat → Nat → Nat → Bool
  | 0, _, _ => false
  | fuel + 1, a, b =>
      a == b ||
      match h.get? a, h.get? b with
      | some na, some nb =>
          na.entity_id == nb.entity_id &&
          (match na.parent, nb.parent with
           | none, none => true
           | some pa, some pb => nodeEqFuel h fuel pa pb
           | _, _ => false) &&
          (na.children.length == nb.children.length &&
            (na.children.zip nb.children).all fun q => nodeEqFuel h fuel q.1 q.2)
      | _, _ => false

/-- Embedding of `NodeImpl.add_child`: append the child unless a node `==`-equal to it
is already among the children (`in` compares by identity, then `==`), then
set the child's parent to this node. -/
def node_add_child (h : List NodeObj) (p c : Nat) : List NodeObj :=
  let pn := h.getD p default
  if pn.children.any (fun x => x == c || nodeEqFuel h (h.length + 1) x c)
  then h
  else
    let h1 := h.set p { pn with children := pn.children ++ [c] }
    let cn := h1.getD c default
    h1.set c { cn with parent := some p }

/-- Embedding of `EntityTreeHierarchyImpl`: root reference, the object store of its
`NodeImpl` objects, and the `_nodes` dict from entity id to node
reference. -/
structure EntityTreeHierarchyImpl where
  name : String
  root : Option Nat := none
  store : List NodeObj := []
  _nodes : List (Nat × Nat) := []
deriving DecidableEq, Repr

/-- Embedding of `set_root`: allocate a fresh root node and map its id to it (existing
`_nodes` entries are not cleared, as in the source). -/
def EntityTreeHierarchyImpl.set_root (t : EntityTreeHierarchyImpl)
    (entity_id : Nat) : EntityTreeHierarchyImpl :=
  let addr := t.store.length
  { t with root := some addr,
           store := t.store ++ [{ entity_id := entity_id }],
           _nodes := dictSet t._nodes entity_id addr }

/-- Embedding of `EntityTreeHierarchyImpl.add_child`: `False` when the parent id is
unknown; otherwise allocate a *fresh* `NodeImpl` for the child id, attach
it via `NodeImpl.add_child` and remap the child id to the fresh node. -/
def EntityTreeHierarchyImpl.add_child (t : EntityTreeHierarchyImpl)
    (parent_id child_id : Nat) : Bool × EntityTreeHierarchyImpl :=
  match dictGet t._nodes parent_id with
  | none => (false, t)
  | some paddr =>
      let caddr := t.store.length
      let h := t.store ++ [{ entity_id := child_id }]
      let h2 := node_add_child h paddr caddr
      (true,
        { t with store := h2, _nodes := dictSet t._nodes child_id caddr })

/-- Embedding of `get_node`, returning the node reference for an entity id. -/
def EntityTreeHierarchyImpl.get_node (t : EntityTreeHierarchyImpl)
    (entity_id : Nat) : Option Nat :=
  dictGet t._nodes entity_id

/-- The entity ids on the strict ancestor chain of a node (following
`parent` references), fuel-bounded. -/
def ancestorIds (h : List NodeObj) : Nat → Nat → List Nat
  | 0, _ => []
  | fuel + 1, a =>
      match (h.getD a default).parent with
      | none => []
      | some p => (h.getD p default).entity_id :: ancestorIds h fuel p

/-- The addresses reachable from a node through `children` references,
fuel-bounded. -/
def subtreeAddrs (h : List NodeObj) : Nat → Nat → List Nat
  | 0, _ => []
  | fuel + 1, a =>
      a :: ((h.getD a default).children.map (subtreeAddrs h fuel)).flatten

/-! ## Catalog (`catalog_impl.py`, `catalog_species.py`) -/

/-- The `CatalogSpecies` enum. -/
inductive CatalogSpecies where
  | SOURCE
  | SINK
  | MIRROR
  | CACHE
  | CLONE
  | FORK
deriving DecidableEq, Repr

/-- The `Hierarchy` union: one of the five concrete hierarchy variants. -/
inductive Hierarchy where
  | listH (h : EntityListHierarchyImpl)
  | setH (h : EntitySetHierarchyImpl)
  | dirH (h : EntityDirectoryHierarchyImpl)
  | treeH (h : EntityTreeHierarchyImpl)
  | mapH (h : AspectMapHierarchyImpl)
deriving DecidableEq, Repr

/-- Embedding of `hierarchy.name`. -/
def Hierarchy.name : Hierarchy → String
  | .listH h => h.name
  | .setH h => h.name
  | .dirH h => h.name
  | .treeH h => h.name
  | .mapH h => h.name

/-- Embedding of `CatalogImpl`: species, version, global id, optional URI, the
non-owning upstream reference (modelled by the upstream catalog's global
id), the aspect-definition registry and the hierarchy registry. -/
structure CatalogImpl where
  species : CatalogSpecies
  version : String
  global_id : Nat := 0
  uri : Option String := none
  upstream : Option Nat := none
  _aspect_defs : List (String × AspectDefImpl) := []
  _hierarchies : List (String × Hierarchy) := []
deriving DecidableEq, Repr

/-- Embedding of `CatalogImpl.add_aspect_def`: raises `ValueError` ("already exists")
when the name is registered — before any mutation — else registers the
definition.  Returned as (raised error, post-call state). -/
def CatalogImpl.add_aspect_def (c : CatalogImpl) (d : AspectDefImpl) :
    Option Unit × CatalogImpl :=
  if (dictGet c._aspect_defs d.name).isSome then (some (), c)
  else (none, { c with _aspect_defs := dictSet c._aspect_defs d.name d })

/-- Embedding of `CatalogImpl.add_hierarchy`: add or replace under the hierarchy's
name; never raises. -/
def CatalogImpl.add_hierarchy (c : CatalogImpl) (h : Hierarchy) :
    CatalogImpl :=
  { c with _hierarchies := dictSet c._hierarchies h.name h }

/-- Embedding of `CatalogImpl.get_hierarchy`. -/
def CatalogImpl.get_hierarchy (c : CatalogImpl) (name : String) :
    Option Hierarchy :=
  dictGet c._hierarchies name

/-! ### Concrete sample data used by witnesses and counterexamples -/

/-- A nullable, writable INTEGER property definition with default `5`. -/
def agePropDef : PropertyDefImpl :=
  { name := "age", property_type := .INTEGER,
    default_value := some (.pyInt 5), has_default_value := true }

/-- An aspect definition with the single property `"age"`. -/
def personDef : AspectDefImpl :=
  { name := "person", properties := [("age", agePropDef)] }

/-- The aspect built on `personDef` with no initial values. -/
def personAspect : AspectImpl := mkAspectImpl personDef [] none

/-- A tree with root entity `0` and child entity `1`:
`set_root(0); add_child(0, 1)`. -/
def treeRC : EntityTreeHierarchyImpl :=
  (((EntityTreeHierarchyImpl.mk "tree" none [] []).set_root 0).add_child 0 1).2

/-- A catalog already holding `personDef` and a list hierarchy `"L"`. -/
def sampleCatalog : CatalogImpl :=
  { species := .SOURCE, version := "1.0.0",
    _aspect_defs := [("person", personDef)],
    _hierarchies := [("L", .listH { name := "L", entities := [7] })] }

end Cheap

namespace Cheap

/-- C2: for every `PropertyType` kind, `validate(None)` is true; for every
non-`None` value `v`, `validate(v)` is true exactly when `v`'s
representation matches the kind's declared representation (with the bool/int
structural aliasing the spec notes); in particular `BOOLEAN.validate`
rejects the integers `1` and `0`. -/
theorem validate_matches_declared_representation (t : PropertyType) (v : PValue) :
    t.validate none = true ∧
    t.validate (some v) = specMatchesRepr v t ∧
    PropertyType.BOOLEAN.validate (some (.pyInt 1)) = false ∧
    PropertyType.BOOLEAN.validate (some (.pyInt 0)) = false := by
  refine ⟨rfl, ?_, rfl, rfl⟩
  cases t <;> cases v <;> rfl

/-- C5: `PropertyType.from_value` returns, for every input, the first kind
in the spec's precedence list (boolean, integer, float, decimal, string,
timestamp, unique identifier, binary blob) whose class the input is an
instance of, and fails with a type error when none matches; in particular
`from_value(True)` is `BOOLEAN`, not `INTEGER`. -/
theorem from_value_follows_declared_precedence (v : PyObj) (b : Bool) :
    PropertyType.from_value v = specFromValue v ∧
    PropertyType.from_value (.obj (.pyBool b)) = .ok .BOOLEAN := by
  constructor
  · cases v with
    | obj w => cases w <;> rfl
    | noneObj => rfl
    | otherObj => rfl
  · rfl

/-- C10: for every Python bool `b`, `INTEGER.validate(b)` is true (bool is
a subclass of int), even though `from_value(b)` infers `BOOLEAN`. -/
theorem integer_validate_accepts_bool (b : Bool) :
    PropertyType.INTEGER.validate (some (.pyBool b)) = true ∧
    PropertyType.from_value (.obj (.pyBool b)) = .ok .BOOLEAN := by
  exact ⟨rfl, rfl⟩

/-- C4: the `Property.value` setter fails with a read-only error whenever
the definition is not writable; otherwise writing `None` fails with a
non-nullable error whenever nulls are disallowed; otherwise writing a
non-`None` value fails with a type-mismatch error whenever
`PropertyType.validate` rejects it; in all remaining cases the write
succeeds, storing the new value. -/
theorem property_setter_error_precedence (p : PropertyImpl) (v : Option PValue) :
    (p.definition.is_writable = false → p.setValue v = .error .readOnly) ∧
    (p.definition.is_writable = true → v = none →
      p.definition.is_nullable = false → p.setValue v = .error .nonNullable) ∧
    (p.definition.is_writable = true →
      ∀ x, v = some x → p.definition.property_type.validate (some x) = false →
      p.setValue v = .error .typeMismatch) ∧
    (p.definition.is_writable = true →
      (v = none → p.definition.is_nullable = true) →
      (∀ x, v = some x → p.definition.property_type.validate (some x) = true) →
      p.setValue v = .ok { p with _value := v }) := by
  refine ⟨?_, ?_, ?_, ?_⟩
  · intro hw; simp [PropertyImpl.setValue, hw]
  · intro hw hv hn; subst hv; simp [PropertyImpl.setValue, hw, hn]
  · intro hw x hv hval; subst hv; simp [PropertyImpl.setValue, hw, hval]
  · intro hw hnull hval
    cases v with
    | none => simp [PropertyImpl.setValue, hw, hnull rfl]
    | some x => simp [PropertyImpl.setValue, hw, hval x rfl]

/-- Witness for C4: a concrete writable nullable STRING property accepts a
string write, the read-only variant rejects it, the non-nullable variant
rejects `None`, and an INTEGER-typed property rejects a string. -/
theorem property_setter_error_precedence_witness :
    (PropertyImpl.mk
        { name := "p", property_type := .STRING } none).setValue
        (some (.pyStr "x")) =
      .ok (PropertyImpl.mk { name := "p", property_type := .STRING }
        (some (.pyStr "x"))) ∧
    (PropertyImpl.mk
        { name := "p", property_type := .STRING, is_writable := false }
        none).setValue (some (.pyStr "x")) = .error .readOnly ∧
    (PropertyImpl.mk
        { name := "p", property_type := .STRING, is_nullable := false }
        none).setValue none = .error .nonNullable ∧
    (PropertyImpl.mk
        { name := "p", property_type := .INTEGER } none).setValue
        (some (.pyStr "x")) = .error .typeMismatch := by
  refine ⟨?_, ?_, ?_, ?_⟩
  · exact (property_setter_error_precedence
      (PropertyImpl.mk { name := "p", property_type := .STRING } none)
      (some (.pyStr "x"))).2.2.2 (by decide)
      (by intro h; cases h) (by intro x hx; cases hx; decide)
  · exact (property_setter_error_precedence
      (PropertyImpl.mk
        { name := "p", property_type := .STRING, is_writable := false } none)
      (some (.pyStr "x"))).1 (by decide)
  · exact (property_setter_error_precedence
      (PropertyImpl.mk
        { name := "p", property_type := .STRING, is_nullable := false } none)
      none).2.1 (by decide) rfl (by decide)
  · exact (property_setter_error_precedence
      (PropertyImpl.mk { name := "p", property_type := .INTEGER } none)
      (some (.pyStr "x"))).2.2.1 (by decide) (.pyStr "x") rfl (by decide)

/-- C3 counterexample: the claim "after a successful `set_property(name, v)`
reading back `get_property(name).value` returns exactly `v`" fails at
`v = None`: on `personAspect` (property `"age"`, nullable, writable,
default `5`), `set_property("age", None)` succeeds, yet the read-back value
is the default `5`, not `None`. -/
theorem set_none_readback_counterexample :
    (personAspect.set_property "age" none).1 = none ∧
    ((personAspect.set_property "age" none).2.get_property "age").map
      PropertyImpl.value = some (some (.pyInt 5)) ∧
    ((personAspect.set_property "age" none).2.get_property "age").map
      PropertyImpl.value ≠ some (none : Option PValue) := by
  refine ⟨rfl, rfl, ?_⟩
  decide

/-- C3 (amended): after a successful `set_property(name, v)` with `v`
non-`None`, `get_property(name).value` returns exactly `v`; a defined
property that was never written reads back the definition's default; and a
successful `set_property(name, None)` resets the property, so the read-back
value is again the stored definition's default. -/
theorem aspect_roundtrip_amended :
    (∀ (a : AspectImpl) (name : String) (x : PValue),
      (a.set_property name (some x)).1 = none →
      ((a.set_property name (some x)).2.get_property name).map
        PropertyImpl.value = some (some x)) ∧
    (∀ (defn : AspectDefImpl) (props : List (String × PropertyImpl))
        (e : Option Nat) (name : String) (pd : PropertyDefImpl),
      dictGet defn.properties name = some pd →
      dictGet props name = none →
      ((mkAspectImpl defn props e).get_property name).map
        PropertyImpl.value = some pd.default_value) ∧
    (∀ (a : AspectImpl) (name : String),
      (a.set_property name none).1 = none →
      ∀ p, (a.set_property name none).2.get_property name = some p →
        p.value = p.definition.default_value) := by
  refine ⟨?_, ?_, ?_⟩
  · intro a name x hok
    cases hd : dictGet a.definition.properties name with
    | none => simp [AspectImpl.set_property, hd] at hok
    | some pd =>
      cases hg : dictGet a.properties name with
      | some prop =>
          cases hsv : prop.setValue (some x) with
          | error e => simp [AspectImpl.set_property, hd, hg, hsv] at hok
          | ok p2 =>
              have hp2 := setValue_ok_eq prop p2 (some x) hsv
              subst hp2
              simp [AspectImpl.set_property, hd, hg, hsv,
                AspectImpl.get_property, dictGet_dictSet_self,
                PropertyImpl.value]
      | none =>
          cases hsv : PropertyImpl.setValue
              { definition := pd, _value := none } (some x) with
          | error e => simp [AspectImpl.set_property, hd, hg, hsv] at hok
          | ok p2 =>
              have hp2 := setValue_ok_eq _ p2 (some x) hsv
              subst hp2
              simp [AspectImpl.set_property, hd, hg, hsv,
                AspectImpl.get_property, dictGet_dictSet_self,
                PropertyImpl.value]
  · intro defn props e name pd hd hp
    show ((mkAspectImpl defn props e).get_property name).map
      PropertyImpl.value = some pd.default_value
    simp only [mkAspectImpl, AspectImpl.get_property]
    unfold aspectPostInit
    rw [aspectPostInit_dictGet, hp, hd]
    simp [PropertyImpl.value]
  · intro a name hok p hget
    cases hd : dictGet a.definition.properties name with
    | none => simp [AspectImpl.set_property, hd] at hok
    | some pd =>
      cases hg : dictGet a.properties name with
      | some prop =>
          cases hsv : prop.setValue none with
          | error e => simp [AspectImpl.set_property, hd, hg, hsv] at hok
          | ok p2 =>
              have hp2 := setValue_ok_eq prop p2 none hsv
              subst hp2
              simp [AspectImpl.set_property, hd, hg, hsv,
                AspectImpl.get_property, dictGet_dictSet_self] at hget
              rw [← hget]
              simp [PropertyImpl.value]
      | none =>
          cases hsv : PropertyImpl.setValue
              { definition := pd, _value := none } none with
          | error e => simp [AspectImpl.set_property, hd, hg, hsv] at hok
          | ok p2 =>
              have hp2 := setValue_ok_eq _ p2 none hsv
              subst hp2
              simp [AspectImpl.set_property, hd, hg, hsv,
                AspectImpl.get_property, dictGet_dictSet_self] at hget
              rw [← hget]
              simp [PropertyImpl.value]

/-- Witness for C3 (amended): on `personAspect`, writing `7` to `"age"`
succeeds and reads back exactly `7`; the never-written `"age"` of a fresh
aspect reads back the default `5`. -/
theorem aspect_roundtrip_amended_witness :
    ((personAspect.set_property "age" (some (.pyInt 7))).2.get_property
      "age").map PropertyImpl.value = some (some (.pyInt 7)) ∧
    ((mkAspectImpl personDef [] none).get_property "age").map
      PropertyImpl.value = some (some (.pyInt 5)) := by
  constructor
  · exact aspect_roundtrip_amended.1 personAspect "age" (.pyInt 7) (by decide)
  · exact aspect_roundtrip_amended.2.1 personDef [] none "age" agePropDef
      (by decide) (by decide)

/-- C7: `Aspect.set_property` is fail-fast and atomic: with every defined
property materialized (as `__post_init__` guarantees), setting a name
absent from the `AspectDef` fails with the "not defined" error leaving the
aspect unchanged, and any failure (undefined name, read-only, non-nullable
or type mismatch) leaves the property mapping and the target property
exactly as they were. -/
theorem aspect_set_property_fail_fast (a : AspectImpl)
    (hinv : ∀ n, (dictGet a.definition.properties n).isSome = true →
      (dictGet a.properties n).isSome = true) :
    (∀ name v, dictGet a.definition.properties name = none →
      (a.set_property name v).1 = some .notDefined ∧
      (a.set_property name v).2 = a) ∧
    (∀ name v e, (a.set_property name v).1 = some e →
      (a.set_property name v).2 = a) := by
  constructor
  · intro name v h
    constructor <;> simp [AspectImpl.set_property, h]
  · intro name v e herr
    cases hd : dictGet a.definition.properties name with
    | none => simp [AspectImpl.set_property, hd]
    | some pd =>
        have hps := hinv name (by rw [hd]; rfl)
        cases hg : dictGet a.properties name with
        | none => rw [hg] at hps; simp at hps
        | some prop =>
            cases hsv : prop.setValue v with
            | ok p2 => simp [AspectImpl.set_property, hd, hg, hsv] at herr
            | error e' => simp [AspectImpl.set_property, hd, hg, hsv]

/-- Witness for C7: on `personAspect` (whose invariant `__post_init__`
establishes), setting the undefined `"height"` fails with "not defined" and
leaves the aspect unchanged, and a type-mismatching write to `"age"` also
leaves it unchanged. -/
theorem aspect_set_property_fail_fast_witness :
    ((personAspect.set_property "height" none).1 =
        some AspectSetError.notDefined ∧
      (personAspect.set_property "height" none).2 = personAspect) ∧
    (personAspect.set_property "age" (some (.pyStr "x"))).2 = personAspect := by
  constructor
  · exact (aspect_set_property_fail_fast personAspect
      (fun n => mkAspect_establishes_inv personDef [] none n)).1 "height" none
      (by decide)
  · exact (aspect_set_property_fail_fast personAspect
      (fun n => mkAspect_establishes_inv personDef [] none n)).2 "age"
      (some (.pyStr "x")) AspectSetError.typeMismatch (by decide)

/-- C1 evaluated at the failing input: on the tree built by `set_root(0);
add_child(0, 1)`, re-adding the existing child id `1` under the root
returns `True` and the root then holds *two* child nodes carrying entity
id `1` (not a no-op: the fresh `NodeImpl` never equals the existing child,
whose `parent` field is already set); and adding the root id `0` under its
descendant `1` also returns `True`: the fresh node for id `0` hangs below a
node whose ancestor ids are `[1, 0]`, so the tree reachable from the root
holds two nodes with entity id `0` — an id-level cycle created silently
instead of the failure the claim requires. -/
theorem tree_add_child_cycle_and_duplicate_eval :
    (treeRC.add_child 0 1).1 = true ∧
    (((treeRC.add_child 0 1).2.store.getD 0 default).children.map
      (fun a => ((treeRC.add_child 0 1).2.store.getD a default).entity_id)) =
      [1, 1] ∧
    (treeRC.add_child 1 0).1 = true ∧
    ((treeRC.add_child 1 0).2.store.getD 2 default).entity_id = 0 ∧
    ancestorIds (treeRC.add_child 1 0).2.store 10 2 = [1, 0] ∧
    ((subtreeAddrs (treeRC.add_child 1 0).2.store 10 0).map
      (fun a =>
        ((treeRC.add_child 1 0).2.store.getD a default).entity_id)).count 0
      = 2 := by
  decide

/-- C6 evaluated at the failing input: the `__eq__` that `@dataclass`
generates for `EntityImpl` compares the aspects dict as well, so two
entities with the same id but different aspect mappings are *not* equal
(contradicting the identity-based equality documented in `entity.py`);
entities with different ids are unequal; and `__hash__` is `None`, so no
entity hashes at all. -/
theorem entity_eq_hash_eval :
    entityEq (EntityImpl.mk 7 [])
      (EntityImpl.mk 7 [("person", personAspect)]) = false ∧
    entityEq (EntityImpl.mk 7 []) (EntityImpl.mk 7 []) = true ∧
    entityEq (EntityImpl.mk 7 []) (EntityImpl.mk 8 []) = false ∧
    EntityImpl.dcHash (EntityImpl.mk 7 [("person", personAspect)]) = none := by
  decide

/-- C8: `add_aspect_def` fails with the "already exists" error on a
duplicate name, leaving the registry unchanged, and succeeds on a fresh
name; `add_hierarchy` under an existing name replaces the previous
hierarchy without error (it is total). -/
theorem catalog_registry_semantics (c : CatalogImpl) (d : AspectDefImpl)
    (h : Hierarchy) :
    ((dictGet c._aspect_defs d.name).isSome = true →
      c.add_aspect_def d = (some (), c)) ∧
    (dictGet c._aspect_defs d.name = none →
      c.add_aspect_def d =
        (none, { c with _aspect_defs := dictSet c._aspect_defs d.name d })) ∧
    ((dictGet c._hierarchies h.name).isSome = true →
      (c.add_hierarchy h).get_hierarchy h.name = some h) := by
  refine ⟨?_, ?_, ?_⟩
  · intro hd; simp [CatalogImpl.add_aspect_def, hd]
  · intro hd; simp [CatalogImpl.add_aspect_def, hd]
  · intro _
    simp [CatalogImpl.add_hierarchy, CatalogImpl.get_hierarchy,
      dictGet_dictSet_self]

/-- Witness for C8: on `sampleCatalog`, re-adding `personDef` raises
"already exists" leaving the catalog unchanged, and re-adding a hierarchy
named `"L"` replaces the existing one. -/
theorem catalog_registry_semantics_witness :
    sampleCatalog.add_aspect_def personDef = (some (), sampleCatalog) ∧
    (sampleCatalog.add_hierarchy
        (.listH { name := "L", entities := [] })).get_hierarchy "L" =
      some (.listH { name := "L", entities := [] }) := by
  constructor
  · exact (catalog_registry_semantics sampleCatalog personDef
      (.listH { name := "L", entities := [] })).1 (by decide)
  · exact (catalog_registry_semantics sampleCatalog personDef
      (.listH { name := "L", entities := [] })).2.2 (by decide)

theorem get?_isSome_iff {α : Type} (l : List α) (n : Nat) :
    (l.get? n).isSome = true ↔ n < l.length := by
  induction l generalizing n with
  | nil => simp [List.get?]
  | cons a t ih =>
      cases n with
      | zero => simp [List.get?]
      | succ m => simpa [List.get?] using ih m

/-- C9 counterexample: on the one-element list hierarchy `["7"]`, `get(-1)`
succeeds (returning the last element) although `-1` lies outside
`[0, size)`, and `insert(5, 9)` succeeds as an append although `5` is
outside `[0, size]`: index operations follow Python semantics (negative
indices, clamping insert) instead of failing outside `[0, size)`. -/
theorem list_index_range_counterexample :
    (EntityListHierarchyImpl.mk "L" [7]).get (-1) = some 7 ∧
    ¬(0 ≤ (-1 : Int)) ∧
    ((EntityListHierarchyImpl.mk "L" [7]).insert 5 9).entities = [7, 9] ∧
    (5 : Int) ≠ ((EntityListHierarchyImpl.mk "L" [7]).size : Int) := by
  decide

/-- C9 (amended): `get` fails exactly for indices outside
`[-size, size)` — Python's negative indexing — and agrees with list lookup
on `[0, size)`; `insert` never fails: its index is clamped into
`[0, size]`, so insertion at any index `≥ size` appends. -/
theorem list_index_amended (l : EntityListHierarchyImpl) (i : Int) (x : Nat) :
    ((l.get i).isSome = true ↔
      (-(l.size : Int) ≤ i ∧ i < (l.size : Int))) ∧
    (0 ≤ i → i < (l.size : Int) → l.get i = l.entities.get? i.toNat) ∧
    ((l.size : Int) ≤ i → (l.insert i x).entities = l.entities ++ [x]) := by
  refine ⟨?_, ?_, ?_⟩
  · unfold EntityListHierarchyImpl.get pyListGet EntityListHierarchyImpl.size
    by_cases hneg : i < 0
    · rw [if_pos hneg]
      by_cases hg : 0 ≤ i + (l.entities.length : Int) ∧
          i + (l.entities.length : Int) < (l.entities.length : Int)
      · rw [if_pos hg, get?_isSome_iff]
        omega
      · rw [if_neg hg]
        simp only [Option.isSome_none, Bool.false_eq_true, false_iff]
        omega
    · rw [if_neg hneg]
      by_cases hg : 0 ≤ i ∧ i < (l.entities.length : Int)
      · rw [if_pos hg, get?_isSome_iff]
        omega
      · rw [if_neg hg]
        simp only [Option.isSome_none, Bool.false_eq_true, false_iff]
        omega
  · intro h0 hlt
    simp only [EntityListHierarchyImpl.size] at hlt
    unfold EntityListHierarchyImpl.get pyListGet
    rw [if_neg (by omega : ¬ i < 0), if_pos ⟨h0, hlt⟩]
  · intro hge
    simp only [EntityListHierarchyImpl.size] at hge
    unfold EntityListHierarchyImpl.insert pyListInsert
    have h0 : ¬ i < 0 := by omega
    rw [if_neg h0, min_eq_right hge]
    simp

/-- Witness for C9 (amended): on the one-element hierarchy, `get(0)` is
list lookup at `0`, and `insert(1, 9)` (index = size) appends. -/
theorem list_index_amended_witness :
    (EntityListHierarchyImpl.mk "L" [7]).get 0 = [7].get? 0 ∧
    ((EntityListHierarchyImpl.mk "L" [7]).insert 1 9).entities = [7, 9] := by
  constructor
  · exact (list_index_amended (EntityListHierarchyImpl.mk "L" [7]) 0 9).2.1
      (by decide) (by decide)
  · have h := (list_index_amended (EntityListHierarchyImpl.mk "L" [7]) 1 9).2.2
      (by decide)
    simpa using h

end Cheap
